import Mathlib

/-!
Verification of the PatchMon compliance agent (Python sources under
src/agent) against its natural-language specification.  The Python code is
shallowly embedded: pure parsing code becomes Lean functions on character
lists and strings, subprocess and network effects become explicit outcome
parameters, and the list of external commands actually invoked is returned
alongside each result so that non-invocation properties can be stated.
-/

/-! ## Basic character and string helpers (Python semantics) -/

/-- Whitespace characters recognised by Python str.strip and the regex
class backslash-s, restricted to ASCII. -/
def isSpaceC (c : Char) : Bool :=
  c = ' ' || c = '\t' || c = '\n' || c = '\r' || c = '\x0b' || c = '\x0c'

/-- Python str.strip with no arguments, on a character list. -/
def stripL (l : List Char) : List Char :=
  ((l.dropWhile isSpaceC).reverse.dropWhile isSpaceC).reverse

/-- Python str.split on a newline separator: always returns at least one
piece, and empty pieces are kept. -/
def splitOnNl : List Char → List (List Char)
  | [] => [[]]
  | '\n' :: rest => [] :: splitOnNl rest
  | c :: rest =>
    match splitOnNl rest with
    | [] => [[c]]
    | l :: ls => (c :: l) :: ls

/-- Python str.lower restricted to ASCII, via the character list. -/
def lowerStr (s : String) : String := String.mk (s.data.map Char.toLower)

/-- Match a literal character sequence, returning the remaining input. -/
def stripLit : List Char → List Char → Option (List Char)
  | [], l => some l
  | _ :: _, [] => none
  | p :: ps, c :: cs => if p = c then stripLit ps cs else none

/-- Does pat occur as a contiguous substring (Python in operator)? -/
def startsWithSeq : List Char → List Char → Bool
  | [], _ => true
  | _ :: _, [] => false
  | p :: ps, c :: cs => p = c && startsWithSeq ps cs

def occursInL (pat : List Char) : List Char → Bool
  | [] => startsWithSeq pat []
  | c :: cs => startsWithSeq pat (c :: cs) || occursInL pat cs

def occursIn (pat s : String) : Bool := occursInL pat.data s.data

/-- Lookup in an association list with a default, mirroring dict.get. -/
def lookupD (m : List (String × String)) (k d : String) : String :=
  ((m.find? (fun p => p.1 = k)).map (fun p => p.2)).getD d

/-- Lookup in an association list without default, mirroring dict.get with
a None result for a missing key. -/
def lookupOpt (m : List (String × String)) (k : String) : Option String :=
  (m.find? (fun p => p.1 = k)).map (fun p => p.2)

/-! ## The canonical Finding record (section 3 of the spec)

Python builds plain dicts; the record below has one field per key.  The
dict key named section is rendered here as the field sect, since section
is a Lean keyword. -/

structure Finding where
  rule_ref : String
  title : String
  status : String
  severity : String
  sect : Option String
  description : Option String
  finding : String
deriving DecidableEq, Repr

/-- Canonical status vocabulary from the spec. -/
def canonicalStatuses : List String := ["pass", "fail", "skip", "notapplicable", "error"]

/-- Canonical severity vocabulary from the spec. -/
def canonicalSeverities : List String := ["low", "medium", "high"]

/-! ## Scan reports and external-process outcomes

run_scan in both adapters returns a dict whose keys differ between the
completed and the error shape; optional fields model the missing keys.
Subprocess invocations are modelled by an explicit outcome argument, and
each embedded run_scan additionally returns the list of argv vectors it
actually handed to subprocess.run. -/

structure Report where
  status : String
  profile_name : Option String
  profile_type : Option String
  started_at : Option String
  completed_at : Option String
  results : List Finding
  raw_output : Option String
  error : Option String
deriving DecidableEq, Repr

/-- Outcome of one subprocess.run call inside the scan try block:
normal completion with an exit code and captured output, a timeout
(subprocess.TimeoutExpired), or any other raised exception, carried as
its rendered message. -/
inductive ExecOutcome where
  | ok (returncode : Int) (stdout stderr : String)
  | timedOut
  | raised (msg : String)
deriving DecidableEq, Repr

/-- An error-shaped report: status error, a message, empty results. -/
def errReport (msg : String) : Report :=
  { status := "error", profile_name := none, profile_type := none,
    started_at := none, completed_at := none, results := [],
    raw_output := none, error := some msg }

/-! ## Docker-Bench adapter: src/agent/lib/compliance/docker_bench.py -/

def DockerBenchScanner.DOCKER_BENCH_IMAGE : String := "docker/docker-bench-security:latest"

/-- Native tag to canonical status table from parse_output. -/
def DockerBenchScanner.status_map : List (String × String) :=
  [("PASS", "pass"), ("WARN", "fail"), ("INFO", "skip"), ("NOTE", "notapplicable")]

/-- Section to severity table from get_severity. -/
def DockerBenchScanner.severity_map : List (String × String) :=
  [("1", "high"), ("2", "high"), ("3", "medium"), ("4", "medium"),
   ("5", "high"), ("6", "medium"), ("7", "low")]

/-- DockerBenchScanner.get_severity: the dot-leading component of the
rule reference selects the severity, defaulting to medium. -/
def DockerBenchScanner.get_severity (rule_ref : String) : String :=
  let sec : String :=
    if rule_ref.data.contains '.' then String.mk (rule_ref.data.takeWhile (fun c => c ≠ '.'))
    else rule_ref
  lookupD DockerBenchScanner.severity_map sec "medium"

/-! The two regexes of parse_output share one skeleton:
open bracket, a tag, close bracket, whitespace, a dotted number, whitespace,
a hyphen, whitespace, nonempty text.  The character-level matcher below
reproduces that skeleton; on stripped lines it returns exactly the groups
the Python regexes produce, where the section regex is this matcher
restricted to the INFO tag with a dotless number. -/

/-- A digit or a dot, the characters a dotted number is made of. -/
def numChar (c : Char) : Bool := c.isDigit || c = '.'

/-- State machine for the regex fragment digits then optionally repeated
dot-digits: seen records whether the current group already has a digit. -/
def vdAux : List Char → Bool → Bool
  | [], seen => seen
  | c :: rest, seen =>
    if c.isDigit then vdAux rest true
    else if c = '.' then seen && vdAux rest false
    else false

/-- The chunk of digit-or-dot characters is exactly of the dotted-number
form: nonempty dot-separated groups of digits. -/
def validDotted (l : List Char) : Bool := vdAux l false

/-- Require at least one whitespace character, then skip the rest of the
run (regex backslash-s plus). -/
def ws1 : List Char → Option (List Char)
  | c :: cs => if isSpaceC c then some (cs.dropWhile isSpaceC) else none
  | [] => none

/-- Match open bracket and one of the four literal tags with its closing
bracket, in the alternation order of the check regex. -/
def matchTag (l : List Char) : Option (String × List Char) :=
  match l with
  | '[' :: r =>
    match stripLit "PASS]".data r with
    | some rest => some ("PASS", rest)
    | none =>
      match stripLit "WARN]".data r with
      | some rest => some ("WARN", rest)
      | none =>
        match stripLit "INFO]".data r with
        | some rest => some ("INFO", rest)
        | none =>
          match stripLit "NOTE]".data r with
          | some rest => some ("NOTE", rest)
          | none => none
  | _ => none

/-- The part of the line skeleton after the bracketed tag: whitespace, a
maximal digit-or-dot chunk that must be a valid dotted number, whitespace,
a hyphen, whitespace, and nonempty trailing text. -/
def afterTag (tag : String) (r1 : List Char) : Option (String × String × String) :=
  match ws1 r1 with
  | none => none
  | some r2 =>
    if validDotted (r2.takeWhile numChar) then
      match ws1 (r2.dropWhile numChar) with
      | none => none
      | some r4 =>
        match r4 with
        | '-' :: r5 =>
          match ws1 r5 with
          | none => none
          | some r6 =>
            if r6.isEmpty then none
            else some (tag, String.mk (r2.takeWhile numChar), String.mk r6)
        | _ => none
    else none

/-- The shared line skeleton of the two parse_output regexes, applied to a
stripped line; returns the tag, the dotted-number reference and the text. -/
def matchBracket (l : List Char) : Option (String × String × String) :=
  match matchTag l with
  | none => none
  | some (tag, r1) => afterTag tag r1

/-- The finding dict appended by parse_output for one check line. -/
def DockerBenchScanner.mkFinding (cs tag num text : String) : Finding :=
  { rule_ref := num,
    title := text,
    status := lookupD DockerBenchScanner.status_map tag "skip",
    severity := DockerBenchScanner.get_severity num,
    sect := some cs,
    description := some ("CIS Docker Benchmark check " ++ num),
    finding := "Check " ++ tag ++ ": " ++ text }

/-- One iteration of the line loop of parse_output: the accumulator is the
current section and the findings so far. -/
def DockerBenchScanner.lineStep (acc : String × List Finding) (rawLine : List Char) :
    String × List Finding :=
  match matchBracket (stripL rawLine) with
  | none => acc
  | some (tag, num, text) =>
    if tag = "INFO" && !(num.data.contains '.') then (num, acc.2)
    else (acc.1, acc.2 ++ [DockerBenchScanner.mkFinding acc.1 tag num text])

/-- DockerBenchScanner.parse_output. -/
def DockerBenchScanner.parse_output (output : String) : List Finding :=
  ((splitOnNl output.data).foldl DockerBenchScanner.lineStep ("", [])).2

/-- DockerBenchScanner.run_scan, with the two subprocess calls of the try
block supplied as outcomes and the two utcnow timestamps as strings; also
returns the argv vectors actually passed to subprocess.run. -/
def DockerBenchScanner.run_scan (docker_available : Bool) (t0 t1 : String)
    (pull runC : ExecOutcome) : Report × List (List String) :=
  if !docker_available then
    (errReport "Docker is not available", [])
  else
    let pullCmd := ["docker", "pull", DockerBenchScanner.DOCKER_BENCH_IMAGE]
    match pull with
    | .timedOut => (errReport "Docker Bench scan timed out", [pullCmd])
    | .raised m => (errReport m, [pullCmd])
    | .ok _ _ _ =>
      let runCmd := ["docker", "run", "--rm", "--net", "host", "--pid", "host",
        "--userns", "host", "--cap-add", "audit_control",
        "-e", "DOCKER_CONTENT_TRUST=$DOCKER_CONTENT_TRUST",
        "-v", "/etc:/etc:ro",
        "-v", "/lib/systemd/system:/lib/systemd/system:ro",
        "-v", "/usr/bin/containerd:/usr/bin/containerd:ro",
        "-v", "/usr/bin/runc:/usr/bin/runc:ro",
        "-v", "/usr/lib/systemd:/usr/lib/systemd:ro",
        "-v", "/var/lib:/var/lib:ro",
        "-v", "/var/run/docker.sock:/var/run/docker.sock:ro",
        "--label", "docker_bench_security",
        DockerBenchScanner.DOCKER_BENCH_IMAGE, "-l", "/tmp/docker-bench.log"]
      match runC with
      | .timedOut => (errReport "Docker Bench scan timed out", [pullCmd, runCmd])
      | .raised m => (errReport m, [pullCmd, runCmd])
      | .ok _ out err =>
        let raw := out ++ err
        ({ status := "completed",
           profile_name := some "CIS Docker Benchmark",
           profile_type := some "docker-bench",
           started_at := some t0,
           completed_at := some t1,
           results := DockerBenchScanner.parse_output raw,
           raw_output := some raw,
           error := none },
         [pullCmd, runCmd])

/-! ## Tool availability probes (check_docker, check_oscap)

subprocess.run may complete with an exit code, exceed the timeout, fail
to find the binary, or raise some other spawn exception such as a
permission error; the except clause in the source catches exactly the
timeout and the missing binary.  An uncaught exception is modelled as the
error branch of Except. -/

inductive ProbeOutcome where
  | completed (returncode : Int)
  | timedOut
  | fileNotFound
  | raised (msg : String)
deriving DecidableEq, Repr

/-- DockerBenchScanner.check_docker, probing docker info. -/
def DockerBenchScanner.check_docker : ProbeOutcome → Except String Bool
  | .completed rc => .ok (rc = 0)
  | .timedOut => .ok false
  | .fileNotFound => .ok false
  | .raised m => .error m

/-- OpenSCAPScanner.check_oscap, probing oscap version. -/
def OpenSCAPScanner.check_oscap : ProbeOutcome → Except String Bool
  | .completed rc => .ok (rc = 0)
  | .timedOut => .ok false
  | .fileNotFound => .ok false
  | .raised m => .error m

/-! ## XML document model for the OpenSCAP adapter

ElementTree elements carry a tag (with the namespace URI in braces), an
attribute list, optional text and child elements.  The children live in a
mutually inductive list type so that all recursions stay structural. -/

mutual
inductive XElem where
  | node (tag : String) (attrs : List (String × String)) (text : Option String) (children : XList)
deriving DecidableEq, Repr
inductive XList where
  | nil
  | cons (e : XElem) (es : XList)
deriving DecidableEq, Repr
end

def XElem.tag : XElem → String
  | .node t _ _ _ => t

def XElem.attrs : XElem → List (String × String)
  | .node _ a _ _ => a

def XElem.text : XElem → Option String
  | .node _ _ x _ => x

mutual
/-- element.iter of ElementTree: the element itself followed by all
descendants in document (preorder) order. -/
def iterElems : XElem → List XElem
  | .node t a x cs => .node t a x cs :: iterList cs
def iterList : XList → List XElem
  | .nil => []
  | .cons c cs => iterElems c ++ iterList cs
end

def ofList : List XElem → XList
  | [] => .nil
  | e :: es => .cons e (ofList es)

/-- Convenience constructor taking the children as an ordinary list. -/
def xnode (tag : String) (attrs : List (String × String)) (text : Option String)
    (cs : List XElem) : XElem :=
  .node tag attrs text (ofList cs)

/-- All proper descendants of an element in document order. -/
def descend (e : XElem) : List XElem :=
  match e with
  | .node _ _ _ cs => iterList cs

/-- element.find with a descendant path and an exact namespaced tag:
first descendant carrying that tag, in document order. -/
def findDesc (t : String) (e : XElem) : Option XElem :=
  (descend e).find? (fun c => c.tag = t)

/-- Polymorphic association-list lookup, mirroring dict.get. -/
def assocFind {α : Type} (m : List (String × α)) (k : String) : Option α :=
  (m.find? (fun p => p.1 = k)).map (fun p => p.2)

/-! ## OpenSCAP adapter: src/agent/lib/compliance/openscap.py -/

/-- The XCCDF 1.2 namespaced result tag used by the first find call. -/
def ns12result : String := "\x7bhttp://checklists.nist.gov/xccdf/1.2\x7dresult"

/-- The XCCDF 1.1 namespaced result tag used by the fallback find call. -/
def ns11result : String := "\x7bhttp://checklists.nist.gov/xccdf/1.1\x7dresult"

/-- Native OpenSCAP result value to canonical status table. -/
def OpenSCAPScanner.status_map : List (String × String) :=
  [("pass", "pass"), ("fail", "fail"), ("error", "error"), ("unknown", "skip"),
   ("notapplicable", "notapplicable"), ("notchecked", "skip"), ("notselected", "skip"),
   ("informational", "skip"), ("fixed", "pass")]

/-- status_map.get with the skip default, as used on each rule-result. -/
def OpenSCAPScanner.statusOf (raw : String) : String :=
  lookupD OpenSCAPScanner.status_map raw "skip"

/-- OpenSCAPScanner.get_rule_title: scan every element, and inside each
Rule whose id matches look for a first title-tagged element; its text is
returned even when that text is missing, while a matching Rule without a
title element lets the scan continue.  The two missing cases collapse in
the Option result exactly as they do at the only call site. -/
def OpenSCAPScanner.get_rule_title (root : XElem) (rule_id : String) : Option String :=
  (((iterElems root).filter
      (fun r => occursIn "Rule" r.tag && lookupOpt r.attrs "id" == some rule_id)).findSome?
    (fun r => ((iterElems r).find? (fun t => occursIn "title" t.tag)).map
      (fun t => t.text))).join

/-- OpenSCAPScanner.get_rule_severity: the first Rule element with the
matching id yields its severity attribute, defaulted to medium and then
lower-cased; no matching Rule yields medium. -/
def OpenSCAPScanner.get_rule_severity (root : XElem) (rule_id : String) : String :=
  match (iterElems root).find?
      (fun r => occursIn "Rule" r.tag && lookupOpt r.attrs "id" == some rule_id) with
  | some r => lowerStr (lookupD r.attrs "severity" "medium")
  | none => "medium"

/-! The section extractor re.search of underscore-separated digit groups:
an underscore, a digit group, one or more further underscore-plus-digit
groups, and a final underscore.  With greedy matching the engine may give
back exactly one trailing digit group so that its leading underscore can
serve as the closing underscore of the pattern. -/

/-- Maximal run of underscore-plus-digits groups, returning the digit
groups and the rest; fuelled to keep the recursion structural. -/
def underGroupsF : Nat → List Char → List (List Char) × List Char
  | 0, l => ([], l)
  | fuel + 1, '_' :: r =>
    let ds := r.takeWhile Char.isDigit
    if ds.isEmpty then ([], '_' :: r)
    else
      let (gs, r3) := underGroupsF fuel (r.dropWhile Char.isDigit)
      (ds :: gs, r3)
  | _ + 1, l => ([], l)

def underGroups (l : List Char) : List (List Char) × List Char :=
  underGroupsF l.length l

/-- Rebuild the matched group: first digit run, then each further group
preceded by its underscore. -/
def joinGroups (d1 : List Char) (gs : List (List Char)) : List Char :=
  d1 ++ gs.foldr (fun g acc => '_' :: g ++ acc) []

/-- Attempt the section pattern anchored at the start of the input. -/
def secAt : List Char → Option (List Char)
  | '_' :: r =>
    let d1 := r.takeWhile Char.isDigit
    if d1.isEmpty then none
    else
      let (gs, r2) := underGroups (r.dropWhile Char.isDigit)
      if r2.head? = some '_' then
        if gs.isEmpty then none else some (joinGroups d1 gs)
      else if 2 ≤ gs.length then some (joinGroups d1 gs.dropLast)
      else none
  | _ => none

/-- re.search: first position, scanning left to right, where the section
pattern matches. -/
def searchSec : List Char → Option (List Char)
  | [] => none
  | c :: rest =>
    match secAt (c :: rest) with
    | some g => some g
    | none => searchSec rest

/-- Section extraction from a rule id: the matched group with its
underscores replaced by dots, when the pattern occurs. -/
def OpenSCAPScanner.extract_section (rule_id : String) : Option String :=
  (searchSec rule_id.data).map
    (fun g => String.mk (g.map (fun c => if c = '_' then '.' else c)))

/-- Read the nested result value of a rule-result: the 1.2 namespace is
tried first, then 1.1; a found element whose text is missing makes the
source call lower on None and raise, modelled as the error branch. -/
def OpenSCAPScanner.resultText (e : XElem) : Except String (Option String) :=
  match findDesc ns12result e with
  | some r =>
    match r.text with
    | some t => .ok (some (lowerStr t))
    | none => .error "AttributeError"
  | none =>
    match findDesc ns11result e with
    | some r =>
      match r.text with
      | some t => .ok (some (lowerStr t))
      | none => .error "AttributeError"
    | none => .ok none

/-- The finding built for one rule-result element. -/
def OpenSCAPScanner.mkFinding (root e : XElem) : Except String Finding :=
  let rule_id := lookupD e.attrs "idref" ""
  match OpenSCAPScanner.resultText e with
  | .error m => .error m
  | .ok rawOpt =>
    let status_raw := rawOpt.getD "unknown"
    .ok { rule_ref := rule_id,
          title := match OpenSCAPScanner.get_rule_title root rule_id with
                   | some t => if t = "" then rule_id else t
                   | none => rule_id,
          status := OpenSCAPScanner.statusOf status_raw,
          severity := OpenSCAPScanner.get_rule_severity root rule_id,
          sect := OpenSCAPScanner.extract_section rule_id,
          description := none,
          finding := "Rule " ++ status_raw }

/-- Results-file state when the parser runs: the file may be missing,
present but not well-formed (ET.parse raises ParseError, which the source
catches), or well-formed with a root element. -/
inductive ResultsFile where
  | absent
  | malformed
  | doc (root : XElem)
deriving DecidableEq, Repr

/-- Effectful map over the rule-result elements: an exception raised while
processing one element abandons the whole list, as in the source loop. -/
def mapExcept (f : XElem → Except String Finding) : List XElem → Except String (List Finding)
  | [] => .ok []
  | x :: xs =>
    match f x with
    | .error e => .error e
    | .ok y =>
      match mapExcept f xs with
      | .error e => .error e
      | .ok ys => .ok (y :: ys)

/-- OpenSCAPScanner.parse_results_xml: a missing file and a malformed file
both yield the empty list (the ParseError is caught and logged); otherwise
every element whose tag contains rule-result produces one finding, in
document order. -/
def OpenSCAPScanner.parse_results_xml : ResultsFile → Except String (List Finding)
  | .absent => .ok []
  | .malformed => .ok []
  | .doc root =>
    mapExcept (OpenSCAPScanner.mkFinding root)
      ((iterElems root).filter (fun e => occursIn "rule-result" e.tag))

/-! ## OpenSCAP scanner state, profile table and run_scan -/

/-- One version entry of PROFILE_MAP: the datastream file name and the
profile name to profile id table, in insertion order. -/
structure VersionEntry where
  datastream : String
  profiles : List (String × String)
deriving DecidableEq, Repr

/-- The static PROFILE_MAP of the source, family then version. -/
def OpenSCAPScanner.PROFILE_MAP : List (String × List (String × VersionEntry)) :=
  [("ubuntu",
    [("22.04",
      { datastream := "ssg-ubuntu2204-ds.xml",
        profiles :=
          [("level1_server", "xccdf_org.ssgproject.content_profile_cis_level1_server"),
           ("level2_server", "xccdf_org.ssgproject.content_profile_cis_level2_server"),
           ("level1_workstation", "xccdf_org.ssgproject.content_profile_cis_level1_workstation")] }),
     ("20.04",
      { datastream := "ssg-ubuntu2004-ds.xml",
        profiles :=
          [("level1_server", "xccdf_org.ssgproject.content_profile_cis_level1_server"),
           ("level2_server", "xccdf_org.ssgproject.content_profile_cis_level2_server")] })]),
   ("debian",
    [("11",
      { datastream := "ssg-debian11-ds.xml",
        profiles :=
          [("level1_server", "xccdf_org.ssgproject.content_profile_cis_level1_server"),
           ("level2_server", "xccdf_org.ssgproject.content_profile_cis_level2_server")] }),
     ("12",
      { datastream := "ssg-debian12-ds.xml",
        profiles :=
          [("level1_server", "xccdf_org.ssgproject.content_profile_cis_level1_server")] })]),
   ("rhel",
    [("8",
      { datastream := "ssg-rhel8-ds.xml",
        profiles :=
          [("level1_server", "xccdf_org.ssgproject.content_profile_cis"),
           ("level2_server", "xccdf_org.ssgproject.content_profile_cis_server_l1")] }),
     ("9",
      { datastream := "ssg-rhel9-ds.xml",
        profiles :=
          [("level1_server", "xccdf_org.ssgproject.content_profile_cis")] })]),
   ("centos",
    [("8",
      { datastream := "ssg-centos8-ds.xml",
        profiles :=
          [("level1_server", "xccdf_org.ssgproject.content_profile_cis")] })]),
   ("rocky",
    [("8",
      { datastream := "ssg-rl8-ds.xml",
        profiles :=
          [("level1_server", "xccdf_org.ssgproject.content_profile_cis")] }),
     ("9",
      { datastream := "ssg-rl9-ds.xml",
        profiles :=
          [("level1_server", "xccdf_org.ssgproject.content_profile_cis")] })])]

/-- Detected operating-system identity, as filled by detect_os; every
field stays None when /etc/os-release is missing. -/
structure OsInfo where
  family : Option String
  version : Option String
  name : Option String
deriving DecidableEq, Repr

/-- The constructor-probed state of an OpenSCAPScanner instance. -/
structure OScanner where
  oscap_available : Bool
  scap_content_path : Option String
  os_info : OsInfo
deriving DecidableEq, Repr

/-- OpenSCAPScanner.is_available: evaluator probe succeeded and a content
directory was found. -/
def OpenSCAPScanner.is_available (s : OScanner) : Bool :=
  s.oscap_available && s.scap_content_path.isSome

/-- posixpath.join of two components as used for the datastream path. -/
def path_join (a b : String) : String :=
  if startsWithSeq "/".data b.data then b
  else if a = "" || startsWithSeq "/".data.reverse a.data.reverse then a ++ b
  else a ++ "/" ++ b

/-- One descriptor returned by get_available_profiles. -/
structure ProfileDesc where
  name : String
  id : String
  datastream : String
  os_family : String
  os_version : String
deriving DecidableEq, Repr

/-- OpenSCAPScanner.get_available_profiles, with the on-disk existence of
the datastream file supplied as an oracle.  A missing or empty family or
version, an unknown table entry, a missing content directory or a missing
datastream file all yield the empty list. -/
def OpenSCAPScanner.get_available_profiles (s : OScanner) (fsExists : String → Bool) :
    List ProfileDesc :=
  match s.os_info.family, s.os_info.version with
  | some fam, some ver =>
    if fam = "" || ver = "" then []
    else
      match assocFind OpenSCAPScanner.PROFILE_MAP fam with
      | none => []
      | some versions =>
        match assocFind versions ver with
        | none => []
        | some entry =>
          match s.scap_content_path.map (fun c => path_join c entry.datastream) with
          | some p =>
            if p ≠ "" && fsExists p then
              entry.profiles.map (fun pr =>
                { name := pr.1, id := pr.2, datastream := p,
                  os_family := fam, os_version := ver })
            else []
          | none => []
  | _, _ => []

/-- Python str.title on ASCII: a letter is upper-cased after a non-letter
and lower-cased after a letter. -/
def pyTitleAux : List Char → Bool → List Char
  | [], _ => []
  | c :: cs, prevAlpha =>
    if c.isAlpha then
      (if prevAlpha then c.toLower else c.toUpper) :: pyTitleAux cs true
    else c :: pyTitleAux cs false

def pyTitle (s : String) : String := String.mk (pyTitleAux s.data false)

/-- Python str.replace of underscores by spaces. -/
def replUnder (s : String) : String :=
  String.mk (s.data.map (fun c => if c = '_' then ' ' else c))

/-- Python repr of a list of strings, as interpolated into the
profile-not-available error message. -/
def pyListRepr (xs : List String) : String :=
  "[" ++ String.intercalate ", " (xs.map (fun x => "'" ++ x ++ "'")) ++ "]"

/-- OpenSCAPScanner.run_scan.  The oscap invocation of the try block is an
outcome argument, the scratch results file content another; the second
component lists the argv vectors actually passed to subprocess.run.  The
scratch directory path is opaque and rendered as a placeholder. -/
def OpenSCAPScanner.run_scan (s : OScanner) (fsExists : String → Bool) (profile_name : String)
    (t0 t1 : String) (execO : ExecOutcome) (resultsFile : ResultsFile) :
    Report × List (List String) :=
  if !(OpenSCAPScanner.is_available s) then
    (errReport "OpenSCAP is not available", [])
  else
    let profiles := OpenSCAPScanner.get_available_profiles s fsExists
    match profiles.find? (fun p => p.name = profile_name) with
    | none =>
      (errReport ("Profile '" ++ profile_name ++ "' not available. Available: " ++
        pyListRepr (profiles.map (fun p => p.name))), [])
    | some profile =>
      let cmd := ["oscap", "xccdf", "eval", "--profile", profile.id,
        "--results", "<tmpdir>/results.xml", "--report", "<tmpdir>/report.html",
        profile.datastream]
      match execO with
      | .timedOut => (errReport "OpenSCAP scan timed out", [cmd])
      | .raised m => (errReport m, [cmd])
      | .ok _ out err =>
        match OpenSCAPScanner.parse_results_xml resultsFile with
        | .error m => (errReport m, [cmd])
        | .ok results =>
          match s.os_info.name with
          | none => (errReport "AttributeError", [cmd])
          | some nm =>
            let os_name := pyTitle nm ++ " " ++ (s.os_info.version.getD "None")
            let profile_display := "CIS " ++ os_name ++ " " ++ pyTitle (replUnder profile_name)
            ({ status := "completed",
               profile_name := some profile_display,
               profile_type := some "openscap",
               started_at := some t0,
               completed_at := some t1,
               results := results,
               raw_output := some (out ++ err),
               error := none }, [cmd])

/-! ## Agent session layer: src/agent/lib/patchmon_agent.py -/

/-- Events observable from one run of the websocket handler loop. -/
inductive WsEvent where
  | connectAttempt
  | connected
  | disconnected
  | sleepSecs (n : Nat)
deriving DecidableEq, Repr

/-- How one iteration of the handler while-loop ends: the connect call
raises a client error; the session raises a client error mid-receive; the
message iterator ends without an exception (server closed the channel);
an error-typed frame arrives and the receive loop breaks; or the task is
cancelled. -/
inductive SessionOutcome where
  | connectFailed
  | recvClientError
  | closedByServer
  | errorFrame
  | cancelled
deriving DecidableEq, Repr

/-- PatchMonAgent.websocket_handler as a trace function over the sequence
of per-iteration outcomes: a client error is followed by the fixed
30-second sleep, the two exception-free session endings are not, and
cancellation breaks the loop. -/
def PatchMonAgent.websocket_handler : List SessionOutcome → List WsEvent
  | [] => []
  | .connectFailed :: rest =>
    .connectAttempt :: .sleepSecs 30 :: PatchMonAgent.websocket_handler rest
  | .recvClientError :: rest =>
    .connectAttempt :: .connected :: .disconnected :: .sleepSecs 30 ::
      PatchMonAgent.websocket_handler rest
  | .closedByServer :: rest =>
    .connectAttempt :: .connected :: .disconnected ::
      PatchMonAgent.websocket_handler rest
  | .errorFrame :: rest =>
    .connectAttempt :: .connected :: .disconnected ::
      PatchMonAgent.websocket_handler rest
  | .cancelled :: _ => []

/-- Outcome of the HTTP POST to the collector: a response with a status
code and body text, or a transport-level client error. -/
inductive HttpOutcome where
  | response (status : Nat) (body : String)
  | clientError (msg : String)
deriving DecidableEq, Repr

/-- What submit_compliance_results logs about its single attempt. -/
inductive SubmitLog where
  | submitted (body : String)
  | failedStatus (status : Nat) (body : String)
  | failedTransport (msg : String)
deriving DecidableEq, Repr

/-- One POST request as issued by submit_compliance_results. -/
structure PostReq where
  url : String
  headers : List (String × String)
  body : Report
deriving DecidableEq, Repr

/-- PatchMonAgent.submit_compliance_results: a single POST carrying the
credential headers; a response is a logged success exactly on status 200,
anything else is a logged failure; a transport error is logged; the report
is never queued or retried. -/
def PatchMonAgent.submit_compliance_results (server_url api_id api_key : String)
    (report : Report) (o : HttpOutcome) : SubmitLog × List PostReq :=
  let req : PostReq :=
    { url := server_url ++ "/api/v1/compliance/scans",
      headers := [("X-API-ID", api_id), ("X-API-KEY", api_key),
                  ("Content-Type", "application/json")],
      body := report }
  match o with
  | .response st body =>
    if st = 200 then (.submitted body, [req])
    else (.failedStatus st body, [req])
  | .clientError m => (.failedTransport m, [req])

/-! ## Concrete fixtures and trace predicates used by the claims -/

/-- Trace predicate: every disconnection event is immediately followed by
the 30-second sleep. -/
def sleepAfterDisc : List WsEvent → Bool
  | [] => true
  | .disconnected :: rest =>
    match rest with
    | .sleepSecs 30 :: _ => sleepAfterDisc rest
    | _ => false
  | _ :: rest => sleepAfterDisc rest

/-- A concrete scanner state on Ubuntu 22.04 with oscap and content found. -/
def oscanUbuntu : OScanner :=
  { oscap_available := true,
    scap_content_path := some "/usr/share/xml/scap/ssg/content",
    os_info := { family := some "ubuntu", version := some "22.04", name := some "ubuntu" } }

/-- The first profile descriptor get_available_profiles yields on that
state when every file exists. -/
def profUbuntuL1 : ProfileDesc :=
  { name := "level1_server",
    id := "xccdf_org.ssgproject.content_profile_cis_level1_server",
    datastream := "/usr/share/xml/scap/ssg/content/ssg-ubuntu2204-ds.xml",
    os_family := "ubuntu", os_version := "22.04" }

/-- A one-element document: a rule-result with no children at all. -/
def bareRuleResult : XElem := xnode "rule-result" [("idref", "r1")] none []

/-- An XCCDF document whose one rule carries the non-canonical severity
attribute Critical. -/
def c1Root : XElem :=
  xnode "Benchmark" [] none
    [xnode "\x7bhttp://checklists.nist.gov/xccdf/1.2\x7dRule"
       [("id", "r1"), ("severity", "Critical")] none [],
     xnode "\x7bhttp://checklists.nist.gov/xccdf/1.2\x7drule-result"
       [("idref", "r1")] none
       [xnode ns12result [] (some "fail") []]]

/-- A line of the claimed shape: bracketed tag, space, rule number,
space hyphen space, text. -/
def mkCheckLine (tag num text : String) : String :=
  "[" ++ tag ++ "] " ++ num ++ " - " ++ text

/-! ## General helper lemmas -/

theorem lookupD_mem_or_default (m : List (String × String)) (k d : String) :
    lookupD m k d = d ∨ ∃ p ∈ m, lookupD m k d = p.2 := by
  unfold lookupD
  cases h : m.find? (fun p => p.1 = k) with
  | none => left; rfl
  | some p =>
    right
    exact ⟨p, List.mem_of_find?_eq_some h, by simp⟩

theorem lookupD_eq_default (m : List (String × String)) (k d : String)
    (h : ∀ p ∈ m, p.1 ≠ k) : lookupD m k d = d := by
  unfold lookupD
  have : m.find? (fun p => p.1 = k) = none := by
    apply List.find?_eq_none.mpr
    intro p hp
    simpa using h p hp
  rw [this]
  rfl

theorem lookupD_eq_getD_lookupOpt (m : List (String × String)) (k d : String) :
    lookupD m k d = (lookupOpt m k).getD d := rfl

theorem mapExcept_mem {g : XElem → Except String Finding} :
    ∀ {l : List XElem} {ys : List Finding}, mapExcept g l = .ok ys →
      ∀ x ∈ l, ∃ y ∈ ys, g x = .ok y := by
  intro l
  induction l with
  | nil => intro ys _ x hx; cases hx
  | cons a t ih =>
    intro ys hok x hx
    unfold mapExcept at hok
    cases ha : g a with
    | error e => rw [ha] at hok; cases hok
    | ok y =>
      rw [ha] at hok
      cases ht : mapExcept g t with
      | error e => rw [ht] at hok; cases hok
      | ok ys' =>
        rw [ht] at hok
        cases hok
        rcases List.mem_cons.mp hx with hx' | hx'
        · exact ⟨y, List.mem_cons_self _ _, hx' ▸ ha⟩
        · rcases ih ht x hx' with ⟨y', hy', hgy'⟩
          exact ⟨y', List.mem_cons_of_mem _ hy', hgy'⟩

theorem mapExcept_mem_rev {g : XElem → Except String Finding} :
    ∀ {l : List XElem} {ys : List Finding}, mapExcept g l = .ok ys →
      ∀ y ∈ ys, ∃ x ∈ l, g x = .ok y := by
  intro l
  induction l with
  | nil =>
    intro ys hok y hy
    unfold mapExcept at hok
    cases hok
    cases hy
  | cons a t ih =>
    intro ys hok y hy
    unfold mapExcept at hok
    cases ha : g a with
    | error e => rw [ha] at hok; cases hok
    | ok y' =>
      rw [ha] at hok
      cases ht : mapExcept g t with
      | error e => rw [ht] at hok; cases hok
      | ok ys' =>
        rw [ht] at hok
        cases hok
        rcases List.mem_cons.mp hy with hy' | hy'
        · exact ⟨a, List.mem_cons_self _ _, hy' ▸ ha⟩
        · rcases ih ht y hy' with ⟨x, hx, hgx⟩
          exact ⟨x, List.mem_cons_of_mem _ hx, hgx⟩

/-! ## Claim C5: unavailable adapters return an error report and invoke nothing -/

/-- C5: for both adapters, when the availability check reports false,
run_scan returns a report with status error, a descriptive error message
and empty results, and the list of subprocess invocations is empty. -/
theorem claim_C5 :
    (∀ (t0 t1 : String) (pull runC : ExecOutcome),
      DockerBenchScanner.run_scan false t0 t1 pull runC =
        (errReport "Docker is not available", [])) ∧
    (∀ (s : OScanner) (fsExists : String → Bool) (pn t0 t1 : String)
      (e : ExecOutcome) (rf : ResultsFile),
      OpenSCAPScanner.is_available s = false →
      OpenSCAPScanner.run_scan s fsExists pn t0 t1 e rf =
        (errReport "OpenSCAP is not available", [])) := by
  constructor
  · intro t0 t1 pull runC
    rfl
  · intro s fsExists pn t0 t1 e rf h
    unfold OpenSCAPScanner.run_scan
    rw [h]
    rfl

/-- C5 witness: a concrete unavailable OpenSCAP scanner yields the error
report and no invocation. -/
theorem claim_C5_witness :
    OpenSCAPScanner.run_scan
      { oscap_available := false, scap_content_path := none,
        os_info := { family := none, version := none, name := none } }
      (fun _ => true) "level1_server" "t0" "t1" .timedOut .absent =
      (errReport "OpenSCAP is not available", []) :=
  claim_C5.2 _ _ _ _ _ _ _ (by decide)

/-! ## Claim C6: reconnection backoff after a mid-session disconnect -/

/-- C6 counterexample: a session that the server closes without raising a
client error is followed by an immediate reconnect attempt, with no sleep
anywhere in the trace, contradicting the claimed unconditional 30-second
backoff after any mid-session disconnect. -/
theorem claim_C6_counterexample :
    PatchMonAgent.websocket_handler [.closedByServer, .closedByServer] =
      [.connectAttempt, .connected, .disconnected,
       .connectAttempt, .connected, .disconnected] ∧
    sleepAfterDisc
      (PatchMonAgent.websocket_handler [.closedByServer, .closedByServer]) = false ∧
    WsEvent.sleepSecs 30 ∉
      PatchMonAgent.websocket_handler [.closedByServer, .closedByServer] := by
  refine ⟨rfl, rfl, ?_⟩
  decide

/-- C6 amended: the 30-second backoff before the next connection attempt
holds for every disconnection that surfaces as a client error (a failed
connect call or a client error raised mid-session); a session ending
without an exception reconnects immediately.  Under client-error-only
outcomes every disconnect is followed by the sleep, and while the loop is
not cancelled it performs one connection attempt per iteration,
indefinitely. -/
theorem claim_C6_amended (os : List SessionOutcome)
    (h : ∀ o ∈ os, o = .connectFailed ∨ o = .recvClientError ∨ o = .cancelled) :
    sleepAfterDisc (PatchMonAgent.websocket_handler os) = true ∧
    (SessionOutcome.cancelled ∉ os →
      (PatchMonAgent.websocket_handler os).count .connectAttempt = os.length) := by
  induction os with
  | nil => exact ⟨rfl, fun _ => rfl⟩
  | cons o t ih =>
    have ht : ∀ o' ∈ t, o' = .connectFailed ∨ o' = .recvClientError ∨ o' = .cancelled :=
      fun o' ho' => h o' (List.mem_cons_of_mem _ ho')
    rcases ih ht with ⟨ih1, ih2⟩
    rcases h o (List.mem_cons_self _ _) with ho | ho | ho <;> subst ho
    · refine ⟨?_, ?_⟩
      · simpa [PatchMonAgent.websocket_handler, sleepAfterDisc] using ih1
      · intro hc
        have hct : SessionOutcome.cancelled ∉ t := fun hx => hc (List.mem_cons_of_mem _ hx)
        simp [PatchMonAgent.websocket_handler, List.count_cons, ih2 hct]
    · refine ⟨?_, ?_⟩
      · simpa [PatchMonAgent.websocket_handler, sleepAfterDisc] using ih1
      · intro hc
        have hct : SessionOutcome.cancelled ∉ t := fun hx => hc (List.mem_cons_of_mem _ hx)
        simp [PatchMonAgent.websocket_handler, List.count_cons, ih2 hct]
    · refine ⟨?_, ?_⟩
      · simp [PatchMonAgent.websocket_handler, sleepAfterDisc]
      · intro hc
        exact absurd (List.mem_cons_self _ _) hc

/-- C6 witness: a concrete client-error-only outcome sequence has the
sleep after its disconnect and one attempt per iteration. -/
theorem claim_C6_witness :
    sleepAfterDisc
      (PatchMonAgent.websocket_handler [.recvClientError, .connectFailed]) = true ∧
    (PatchMonAgent.websocket_handler
      [.recvClientError, .connectFailed]).count .connectAttempt = 2 :=
  ⟨(claim_C6_amended _ (by decide)).1, (claim_C6_amended _ (by decide)).2 (by decide)⟩

/-! ## Claim C7: submission success criterion and single attempt -/

/-- C7 counterexample: 204 is a 200-class response, yet the source treats
it as a failure (only the exact status 200 counts as success); the report
is logged as failed and discarded. -/
theorem claim_C7_counterexample :
    (PatchMonAgent.submit_compliance_results "https://srv" "id" "key"
      (errReport "e") (.response 204 "no content")).1 =
      .failedStatus 204 "no content" ∧
    200 ≤ 204 ∧ 204 < 300 := by
  exact ⟨rfl, by decide, by decide⟩

/-- C7 amended: submit always performs exactly one POST attempt with the
credential headers; the attempt is logged as a success exactly when the
response status is literally 200 (not any 200-class status); any other
response and any transport error is logged as a failure and the report is
discarded with no resubmission. -/
theorem claim_C7_amended (server api_id api_key : String) (r : Report) (o : HttpOutcome) :
    (PatchMonAgent.submit_compliance_results server api_id api_key r o).2.length = 1 ∧
    ((∃ b, (PatchMonAgent.submit_compliance_results server api_id api_key r o).1 =
        .submitted b) ↔ (∃ b, o = .response 200 b)) ∧
    (∀ st b, o = .response st b → st ≠ 200 →
      (PatchMonAgent.submit_compliance_results server api_id api_key r o).1 =
        .failedStatus st b) ∧
    (∀ m, o = .clientError m →
      (PatchMonAgent.submit_compliance_results server api_id api_key r o).1 =
        .failedTransport m) ∧
    (∀ req ∈ (PatchMonAgent.submit_compliance_results server api_id api_key r o).2,
      req.headers = [("X-API-ID", api_id), ("X-API-KEY", api_key),
        ("Content-Type", "application/json")] ∧ req.body = r) := by
  cases o with
  | response st body =>
    by_cases hst : st = 200
    · subst hst
      refine ⟨rfl, ?_, ?_, ?_, ?_⟩
      · constructor
        · intro _; exact ⟨body, rfl⟩
        · intro _; exact ⟨body, by simp [PatchMonAgent.submit_compliance_results]⟩
      · intro st' b h h200
        cases h
        exact absurd rfl h200
      · intro m h; cases h
      · intro req hreq
        simp [PatchMonAgent.submit_compliance_results] at hreq
        subst hreq
        exact ⟨rfl, rfl⟩
    · refine ⟨?_, ?_, ?_, ?_, ?_⟩
      · simp [PatchMonAgent.submit_compliance_results, hst]
      · constructor
        · intro ⟨b, hb⟩
          simp [PatchMonAgent.submit_compliance_results, hst] at hb
        · intro ⟨b, hb⟩
          cases hb
          exact absurd rfl hst
      · intro st' b h _
        cases h
        simp [PatchMonAgent.submit_compliance_results, hst]
      · intro m h; cases h
      · intro req hreq
        simp [PatchMonAgent.submit_compliance_results, hst] at hreq
        subst hreq
        exact ⟨rfl, rfl⟩
  | clientError m =>
    refine ⟨rfl, ?_, ?_, ?_, ?_⟩
    · constructor
      · intro ⟨b, hb⟩; cases hb
      · intro ⟨b, hb⟩; cases hb
    · intro st' b h; cases h
    · intro m' h
      cases h
      rfl
    · intro req hreq
      simp [PatchMonAgent.submit_compliance_results] at hreq
      subst hreq
      exact ⟨rfl, rfl⟩

/-- C7 witness: a concrete 200 response is a logged success after exactly
one attempt. -/
theorem claim_C7_witness :
    (PatchMonAgent.submit_compliance_results "https://srv" "id" "key"
      (errReport "e") (.response 200 "ok")).2.length = 1 ∧
    ∃ b, (PatchMonAgent.submit_compliance_results "https://srv" "id" "key"
      (errReport "e") (.response 200 "ok")).1 = .submitted b :=
  ⟨(claim_C7_amended "https://srv" "id" "key" (errReport "e") (.response 200 "ok")).1,
   (claim_C7_amended "https://srv" "id" "key" (errReport "e")
     (.response 200 "ok")).2.1.mpr ⟨"ok", rfl⟩⟩

/-! ## Claim C9: availability probes and exception propagation -/

/-- C9 counterexample: a spawn failure other than a missing binary (for
example a permission error executing it) is not caught by the except
clause, so the probe propagates the exception instead of returning false. -/
theorem claim_C9_counterexample :
    DockerBenchScanner.check_docker (.raised "PermissionError") =
      .error "PermissionError" ∧
    OpenSCAPScanner.check_oscap (.raised "PermissionError") =
      .error "PermissionError" :=
  ⟨rfl, rfl⟩

/-- C9 amended: both probes return a boolean for a completed process (true
exactly on exit status zero), return false on a timeout or a missing
binary, but let any other spawn exception propagate to the caller. -/
theorem claim_C9_amended (o : ProbeOutcome) :
    (∀ rc : Int, o = .completed rc → rc = 0 →
      DockerBenchScanner.check_docker o = .ok true ∧
      OpenSCAPScanner.check_oscap o = .ok true) ∧
    (∀ rc : Int, o = .completed rc → rc ≠ 0 →
      DockerBenchScanner.check_docker o = .ok false ∧
      OpenSCAPScanner.check_oscap o = .ok false) ∧
    ((o = .timedOut ∨ o = .fileNotFound) →
      DockerBenchScanner.check_docker o = .ok false ∧
      OpenSCAPScanner.check_oscap o = .ok false) ∧
    (∀ m, o = .raised m →
      DockerBenchScanner.check_docker o = .error m ∧
      OpenSCAPScanner.check_oscap o = .error m) := by
  refine ⟨?_, ?_, ?_, ?_⟩
  · intro rc h hrc
    subst h; subst hrc
    exact ⟨rfl, rfl⟩
  · intro rc h hrc
    subst h
    constructor <;>
      simp [DockerBenchScanner.check_docker, OpenSCAPScanner.check_oscap, hrc]
  · rintro (h | h) <;> subst h <;> exact ⟨rfl, rfl⟩
  · intro m h
    subst h
    exact ⟨rfl, rfl⟩

/-- C9 witness: the probes return false on a concrete timeout. -/
theorem claim_C9_witness :
    DockerBenchScanner.check_docker .timedOut = .ok false ∧
    OpenSCAPScanner.check_oscap .timedOut = .ok false :=
  (claim_C9_amended .timedOut).2.2.1 (Or.inl rfl)

/-! ## Claim C8: malformed results document still yields a completed report -/

/-- C8: when the scanner is available, the requested profile resolves, and
the oscap process completes, a results file that is not well-formed XML
makes the parser return the empty finding list and run_scan still returns
a completed report with zero results, not an error report. -/
theorem claim_C8 (s : OScanner) (fsExists : String → Bool) (pn t0 t1 nm : String)
    (prof : ProfileDesc) (rc : Int) (out err : String)
    (hav : OpenSCAPScanner.is_available s = true)
    (hn : s.os_info.name = some nm)
    (hp : (OpenSCAPScanner.get_available_profiles s fsExists).find?
      (fun p => p.name = pn) = some prof) :
    OpenSCAPScanner.parse_results_xml .malformed = .ok [] ∧
    (OpenSCAPScanner.run_scan s fsExists pn t0 t1 (.ok rc out err) .malformed).1.status =
      "completed" ∧
    (OpenSCAPScanner.run_scan s fsExists pn t0 t1 (.ok rc out err) .malformed).1.results =
      [] := by
  refine ⟨rfl, ?_, ?_⟩ <;>
    simp [OpenSCAPScanner.run_scan, hav, hp, hn, OpenSCAPScanner.parse_results_xml]

/-- C8 witness: the concrete Ubuntu scanner with a malformed results file
produces a completed report with zero results. -/
theorem claim_C8_witness :
    (OpenSCAPScanner.run_scan oscanUbuntu (fun _ => true) "level1_server"
      "t0" "t1" (.ok 0 "" "") .malformed).1.status = "completed" ∧
    (OpenSCAPScanner.run_scan oscanUbuntu (fun _ => true) "level1_server"
      "t0" "t1" (.ok 0 "" "") .malformed).1.results = [] :=
  ⟨(claim_C8 oscanUbuntu (fun _ => true) "level1_server" "t0" "t1" "ubuntu"
      profUbuntuL1 0 "" "" (by decide) rfl (by decide)).2.1,
   (claim_C8 oscanUbuntu (fun _ => true) "level1_server" "t0" "t1" "ubuntu"
      profUbuntuL1 0 "" "" (by decide) rfl (by decide)).2.2⟩

/-! ## Parsed-finding decomposition for the OpenSCAP adapter -/

/-- Every finding of a successfully parsed document comes from some
element of the document: its status is the mapped native value (defaulted
to unknown when no result element exists), its severity is the rule
severity lookup, and the finding text records the native value. -/
theorem parse_finding_analysis (root : XElem) (fs : List Finding) (f : Finding)
    (hok : OpenSCAPScanner.parse_results_xml (.doc root) = .ok fs) (hf : f ∈ fs) :
    ∃ e ∈ iterElems root, ∃ rawOpt : Option String,
      OpenSCAPScanner.resultText e = .ok rawOpt ∧
      f.status = OpenSCAPScanner.statusOf (rawOpt.getD "unknown") ∧
      f.severity = OpenSCAPScanner.get_rule_severity root (lookupD e.attrs "idref" "") ∧
      f.finding = "Rule " ++ rawOpt.getD "unknown" := by
  unfold OpenSCAPScanner.parse_results_xml at hok
  rcases mapExcept_mem_rev hok f hf with ⟨e, he, hmk⟩
  have he' : e ∈ iterElems root := (List.mem_filter.mp he).1
  refine ⟨e, he', ?_⟩
  cases hres : OpenSCAPScanner.resultText e with
  | error m => simp [OpenSCAPScanner.mkFinding, hres] at hmk
  | ok rawOpt =>
    simp only [OpenSCAPScanner.mkFinding, hres, Except.ok.injEq] at hmk
    subst hmk
    exact ⟨rawOpt, rfl, rfl, rfl, rfl⟩

/-- The OpenSCAP status table with its skip default only produces
canonical statuses. -/
theorem oscap_status_canonical (raw : String) :
    OpenSCAPScanner.statusOf raw ∈ canonicalStatuses := by
  unfold OpenSCAPScanner.statusOf
  rcases lookupD_mem_or_default OpenSCAPScanner.status_map raw "skip" with h | ⟨p, hp, h⟩
  · rw [h]; decide
  · rw [h]
    simp only [OpenSCAPScanner.status_map, List.mem_cons, List.not_mem_nil, or_false] at hp
    rcases hp with rfl | rfl | rfl | rfl | rfl | rfl | rfl | rfl | rfl <;> decide

/-- get_rule_severity either yields the literal medium default or the
lower-cased severity attribute of some element of the document. -/
theorem get_rule_severity_prov (root : XElem) (rid : String) :
    OpenSCAPScanner.get_rule_severity root rid = "medium" ∨
    ∃ e ∈ iterElems root, ∃ v, lookupOpt e.attrs "severity" = some v ∧
      OpenSCAPScanner.get_rule_severity root rid = lowerStr v := by
  unfold OpenSCAPScanner.get_rule_severity
  cases hfind : (iterElems root).find?
      (fun r => occursIn "Rule" r.tag && lookupOpt r.attrs "id" == some rid) with
  | none => left; rfl
  | some r =>
    cases hv : lookupOpt r.attrs "severity" with
    | none =>
      left
      show lowerStr (lookupD r.attrs "severity" "medium") = "medium"
      rw [lookupD_eq_getD_lookupOpt, hv]
      decide
    | some v =>
      right
      refine ⟨r, List.mem_of_find?_eq_some hfind, v, hv, ?_⟩
      show lowerStr (lookupD r.attrs "severity" "medium") = lowerStr v
      rw [lookupD_eq_getD_lookupOpt, hv]
      rfl

/-! ## Claim C4: the OpenSCAP native-status mapping table -/

/-- C4: the native result value to canonical status mapping is exactly
pass and fixed to pass, fail to fail, error to error, notapplicable to
notapplicable, the four skip-like values to skip, and every unrecognised
value to skip; and every finding of a parsed document carries a status
produced by this mapping from the native value recorded in its finding
text. -/
theorem claim_C4 :
    (∀ raw : String,
      ((raw = "pass" ∨ raw = "fixed") → OpenSCAPScanner.statusOf raw = "pass") ∧
      (raw = "fail" → OpenSCAPScanner.statusOf raw = "fail") ∧
      (raw = "error" → OpenSCAPScanner.statusOf raw = "error") ∧
      (raw = "notapplicable" → OpenSCAPScanner.statusOf raw = "notapplicable") ∧
      (raw ∈ ["unknown", "notchecked", "notselected", "informational"] →
        OpenSCAPScanner.statusOf raw = "skip") ∧
      (raw ∉ ["pass", "fail", "error", "unknown", "notapplicable", "notchecked",
              "notselected", "informational", "fixed"] →
        OpenSCAPScanner.statusOf raw = "skip")) ∧
    (∀ (root : XElem) (fs : List Finding) (f : Finding),
      OpenSCAPScanner.parse_results_xml (.doc root) = .ok fs → f ∈ fs →
      ∃ raw, f.status = OpenSCAPScanner.statusOf raw ∧ f.finding = "Rule " ++ raw) := by
  constructor
  · intro raw
    refine ⟨?_, ?_, ?_, ?_, ?_, ?_⟩
    · rintro (rfl | rfl) <;> decide
    · rintro rfl; decide
    · rintro rfl; decide
    · rintro rfl; decide
    · intro hm
      simp only [List.mem_cons, List.not_mem_nil, or_false] at hm
      rcases hm with rfl | rfl | rfl | rfl <;> decide
    · intro hraw
      unfold OpenSCAPScanner.statusOf
      apply lookupD_eq_default
      intro p hp
      simp only [List.mem_cons, List.not_mem_nil, or_false, not_or] at hraw
      obtain ⟨h1, h2, h3, h4, h5, h6, h7, h8, h9⟩ := hraw
      simp only [OpenSCAPScanner.status_map, List.mem_cons, List.not_mem_nil, or_false] at hp
      rcases hp with rfl | rfl | rfl | rfl | rfl | rfl | rfl | rfl | rfl <;>
        first
        | exact Ne.symm h1
        | exact Ne.symm h2
        | exact Ne.symm h3
        | exact Ne.symm h4
        | exact Ne.symm h5
        | exact Ne.symm h6
        | exact Ne.symm h7
        | exact Ne.symm h8
        | exact Ne.symm h9
  · intro root fs f hok hf
    rcases parse_finding_analysis root fs f hok hf with ⟨e, _, rawOpt, _, hst, _, hfd⟩
    exact ⟨rawOpt.getD "unknown", hst, hfd⟩

/-- C4 witness: the table facts applied at concrete native values. -/
theorem claim_C4_witness :
    OpenSCAPScanner.statusOf "fixed" = "pass" ∧
    OpenSCAPScanner.statusOf "notchecked" = "skip" ∧
    OpenSCAPScanner.statusOf "somethingelse" = "skip" :=
  ⟨(claim_C4.1 "fixed").1 (Or.inr rfl),
   (claim_C4.1 "notchecked").2.2.2.2.1 (by decide),
   (claim_C4.1 "somethingelse").2.2.2.2.2 (by decide)⟩

/-! ## Claim C10: rule-result without a nested result element -/

/-- C10: a rule-result element carrying no nested result element in
either the XCCDF 1.2 or the 1.1 namespace still produces a finding in a
successfully parsed document, with the native value treated as unknown
and hence the canonical status skip. -/
theorem claim_C10 (root e : XElem) (fs : List Finding)
    (hok : OpenSCAPScanner.parse_results_xml (.doc root) = .ok fs)
    (he : e ∈ iterElems root)
    (htag : occursIn "rule-result" e.tag = true)
    (h12 : findDesc ns12result e = none)
    (h11 : findDesc ns11result e = none) :
    ∃ f ∈ fs, f.rule_ref = lookupD e.attrs "idref" "" ∧ f.status = "skip" ∧
      f.finding = "Rule unknown" := by
  have hres : OpenSCAPScanner.resultText e = .ok none := by
    unfold OpenSCAPScanner.resultText
    rw [h12, h11]
  have hmem : e ∈ (iterElems root).filter (fun x => occursIn "rule-result" x.tag) :=
    List.mem_filter.mpr ⟨he, htag⟩
  unfold OpenSCAPScanner.parse_results_xml at hok
  rcases mapExcept_mem hok e hmem with ⟨f, hf, hmk⟩
  refine ⟨f, hf, ?_⟩
  simp only [OpenSCAPScanner.mkFinding, hres, Except.ok.injEq] at hmk
  rw [← hmk]
  exact ⟨rfl, rfl, rfl⟩

/-- C10 witness: parsing the one-element document yields one finding with
status skip for the rule. -/
theorem claim_C10_witness :
    ∃ f ∈ [({ rule_ref := "r1", title := "r1", status := "skip", severity := "medium",
              sect := none, description := none, finding := "Rule unknown" } : Finding)],
      f.rule_ref = lookupD bareRuleResult.attrs "idref" "" ∧ f.status = "skip" ∧
        f.finding = "Rule unknown" :=
  claim_C10 bareRuleResult bareRuleResult _ rfl (by decide) (by decide)
    rfl rfl

/-! ## Docker-Bench parse invariants -/

/-- One line either leaves the finding list unchanged or appends exactly
one finding of the standard record shape. -/
theorem lineStep_snd (acc : String × List Finding) (l : List Char) :
    (DockerBenchScanner.lineStep acc l).2 = acc.2 ∨
    ∃ tag num text, (DockerBenchScanner.lineStep acc l).2 =
      acc.2 ++ [DockerBenchScanner.mkFinding acc.1 tag num text] := by
  unfold DockerBenchScanner.lineStep
  cases matchBracket (stripL l) with
  | none => exact Or.inl rfl
  | some r =>
    obtain ⟨tag, num, text⟩ := r
    by_cases hc : tag = "INFO" ∧ '.' ∉ num.data
    · left
      simp [hc]
    · right
      exact ⟨tag, num, text, by simp [hc]⟩

/-- Any property of the appended finding record is an invariant of the
line loop of parse_output. -/
theorem foldl_lineStep_inv (P : Finding → Prop)
    (hP : ∀ cs tag num text, P (DockerBenchScanner.mkFinding cs tag num text)) :
    ∀ (lines : List (List Char)) (acc : String × List Finding),
      (∀ f ∈ acc.2, P f) →
      ∀ f ∈ (lines.foldl DockerBenchScanner.lineStep acc).2, P f := by
  intro lines
  induction lines with
  | nil => intro acc hacc f hf; exact hacc f hf
  | cons l ls ih =>
    intro acc hacc f hf
    rw [List.foldl_cons] at hf
    refine ih _ ?_ f hf
    intro g hg
    rcases lineStep_snd acc l with h | ⟨tag, num, text, h⟩
    · rw [h] at hg
      exact hacc g hg
    · rw [h] at hg
      rcases List.mem_append.mp hg with hg' | hg'
      · exact hacc g hg'
      · rw [List.mem_singleton.mp hg']
        exact hP _ _ _ _

/-- Every finding emitted by parse_output is an instance of the appended
record shape. -/
theorem parse_output_inv (P : Finding → Prop)
    (hP : ∀ cs tag num text, P (DockerBenchScanner.mkFinding cs tag num text)) :
    ∀ (out : String) (f : Finding), f ∈ DockerBenchScanner.parse_output out → P f := by
  intro out f hf
  exact foldl_lineStep_inv P hP _ _ (by intro g hg; cases hg) f hf

/-- The docker-bench tag table with its skip default only produces
canonical statuses. -/
theorem docker_status_canonical (tag : String) :
    lookupD DockerBenchScanner.status_map tag "skip" ∈ canonicalStatuses := by
  rcases lookupD_mem_or_default DockerBenchScanner.status_map tag "skip" with h | ⟨p, hp, h⟩
  · rw [h]; decide
  · rw [h]
    simp only [DockerBenchScanner.status_map, List.mem_cons, List.not_mem_nil, or_false] at hp
    rcases hp with rfl | rfl | rfl | rfl <;> decide

/-- The docker-bench section table with its medium default only produces
canonical severities. -/
theorem docker_severity_canonical (r : String) :
    DockerBenchScanner.get_severity r ∈ canonicalSeverities := by
  have key : ∀ k, lookupD DockerBenchScanner.severity_map k "medium" ∈ canonicalSeverities := by
    intro k
    rcases lookupD_mem_or_default DockerBenchScanner.severity_map k "medium" with h | ⟨p, hp, h⟩
    · rw [h]; decide
    · rw [h]
      simp only [DockerBenchScanner.severity_map, List.mem_cons, List.not_mem_nil,
        or_false] at hp
      rcases hp with rfl | rfl | rfl | rfl | rfl | rfl | rfl <;> decide
  exact key _

/-! ## Claim C1: canonical status and severity vocabularies -/

/-- C1 counterexample: the OpenSCAP adapter lower-cases the native
severity attribute without mapping it onto the canonical set, so a rule
with severity Critical yields a finding whose severity is the tool-native
value critical, outside the canonical low, medium, high vocabulary. -/
theorem claim_C1_counterexample :
    OpenSCAPScanner.parse_results_xml (.doc c1Root) =
      .ok [{ rule_ref := "r1", title := "r1", status := "fail", severity := "critical",
             sect := none, description := none, finding := "Rule fail" }] ∧
    "critical" ∉ canonicalSeverities := by
  exact ⟨rfl, by decide⟩

/-- C1 amended: statuses are always canonical for both adapters, with the
skip default for unmapped values; docker-bench severities are always
canonical with the medium default; the OpenSCAP severity, however, is the
lower-cased native severity attribute of the matching rule (medium when
absent), which is canonical only when the document uses canonical
severity attributes. -/
theorem claim_C1_amended :
    (∀ (out : String) (f : Finding), f ∈ DockerBenchScanner.parse_output out →
      f.status ∈ canonicalStatuses ∧ f.severity ∈ canonicalSeverities) ∧
    (∀ (root : XElem) (fs : List Finding) (f : Finding),
      OpenSCAPScanner.parse_results_xml (.doc root) = .ok fs → f ∈ fs →
      f.status ∈ canonicalStatuses) ∧
    (∀ (root : XElem) (fs : List Finding) (f : Finding),
      OpenSCAPScanner.parse_results_xml (.doc root) = .ok fs → f ∈ fs →
      f.severity = "medium" ∨
      ∃ e ∈ iterElems root, ∃ v, lookupOpt e.attrs "severity" = some v ∧
        f.severity = lowerStr v) := by
  refine ⟨?_, ?_, ?_⟩
  · apply parse_output_inv
    intro cs tag num text
    exact ⟨docker_status_canonical tag, docker_severity_canonical num⟩
  · intro root fs f hok hf
    rcases parse_finding_analysis root fs f hok hf with ⟨e, _, rawOpt, _, hst, _, _⟩
    rw [hst]
    exact oscap_status_canonical _
  · intro root fs f hok hf
    rcases parse_finding_analysis root fs f hok hf with ⟨e, _, rawOpt, _, _, hsev, _⟩
    rw [hsev]
    exact get_rule_severity_prov root _

/-- C1 witness: a concrete docker-bench finding has canonical status and
severity. -/
theorem claim_C1_witness :
    (DockerBenchScanner.mkFinding "" "PASS" "1.1" "x").status ∈ canonicalStatuses ∧
    (DockerBenchScanner.mkFinding "" "PASS" "1.1" "x").severity ∈ canonicalSeverities :=
  claim_C1_amended.1 "[PASS] 1.1 - x" _ (by decide)

/-! ## Claim C2 support: parsing a canonical check line -/

theorem data_append (a b : String) : (a ++ b).data = a.data ++ b.data := rfl

theorem mk_data (s : String) : String.mk s.data = s := rfl

theorem data_inj {a b : String} (h : a.data = b.data) : a = b := by
  rw [← mk_data a, ← mk_data b, h]

theorem ne_of_pred {p : Char → Bool} {c d : Char} (h : p c = true) (hd : p d = false) :
    c ≠ d := by
  intro he
  rw [he, hd] at h
  cases h

theorem digit_not_space {c : Char} (hd : c.isDigit = true) : isSpaceC c = false := by
  by_contra hs
  rw [Bool.not_eq_false] at hs
  unfold isSpaceC at hs
  simp only [Bool.or_eq_true, decide_eq_true_eq] at hs
  rcases hs with ((((h | h) | h) | h) | h) | h <;> subst h <;> exact absurd hd (by decide)

theorem vdAux_mem : ∀ (l : List Char) (b : Bool), vdAux l b = true →
    ∀ c ∈ l, numChar c = true := by
  intro l
  induction l with
  | nil => intro b _ c hc; cases hc
  | cons a t ih =>
    intro b hv c hc
    unfold vdAux at hv
    rcases List.mem_cons.mp hc with rfl | hc'
    · by_cases hd : c.isDigit = true
      · simp [numChar, hd]
      · rw [if_neg hd] at hv
        by_cases hdot : c = '.'
        · simp [numChar, hdot]
        · rw [if_neg hdot] at hv
          cases hv
    · by_cases hd : a.isDigit = true
      · rw [if_pos hd] at hv
        exact ih true hv c hc'
      · rw [if_neg hd] at hv
        by_cases hdot : a = '.'
        · rw [if_pos hdot, Bool.and_eq_true] at hv
          exact ih false hv.2 c hc'
        · rw [if_neg hdot] at hv
          cases hv

theorem validDotted_head (c : Char) (l : List Char)
    (h : validDotted (c :: l) = true) : c.isDigit = true := by
  unfold validDotted vdAux at h
  by_cases hd : c.isDigit = true
  · exact hd
  · rw [if_neg hd] at h
    by_cases hdot : c = '.'
    · rw [if_pos hdot] at h
      simp at h
    · rw [if_neg hdot] at h
      cases h

theorem dropWhile_eq_self {p : Char → Bool} {l : List Char}
    (h : ∀ c, l.head? = some c → p c = false) : l.dropWhile p = l := by
  cases l with
  | nil => rfl
  | cons a t =>
    rw [List.dropWhile_cons_of_neg]
    simp [h a rfl]

theorem takeWhile_append_all {p : Char → Bool} :
    ∀ (l r : List Char), (∀ c ∈ l, p c = true) →
      (∀ c, r.head? = some c → p c = false) →
      (l ++ r).takeWhile p = l ∧ (l ++ r).dropWhile p = r := by
  intro l
  induction l with
  | nil =>
    intro r _ hr
    exact ⟨by cases r with
            | nil => rfl
            | cons a t => rw [List.nil_append, List.takeWhile_cons_of_neg (by simp [hr a rfl])],
          by rw [List.nil_append]; exact dropWhile_eq_self hr⟩
  | cons a t ih =>
    intro r hl hr
    have ha : p a = true := hl a (List.mem_cons_self _ _)
    have ht := ih r (fun c hc => hl c (List.mem_cons_of_mem _ hc)) hr
    constructor
    · rw [List.cons_append, List.takeWhile_cons_of_pos ha, ht.1]
    · rw [List.cons_append, List.dropWhile_cons_of_pos ha, ht.2]

theorem splitOnNl_single : ∀ l : List Char, '\n' ∉ l → splitOnNl l = [l] := by
  intro l h
  induction l with
  | nil => rfl
  | cons c t ih =>
    have hc : c ≠ '\n' := fun he => h (he ▸ List.mem_cons_self _ _)
    have ht : '\n' ∉ t := fun hx => h (List.mem_cons_of_mem _ hx)
    rw [splitOnNl]
    · rw [ih ht]
    · exact fun he => hc he

theorem head?_append_left (l r : List Char) (h : l ≠ []) : (l ++ r).head? = l.head? := by
  cases l with
  | nil => exact absurd rfl h
  | cons a t => rfl

theorem getLast?_append_right (l r : List Char) (h : r ≠ []) :
    (l ++ r).getLast? = r.getLast? := by
  rw [← List.head?_reverse, ← List.head?_reverse, List.reverse_append]
  exact head?_append_left _ _ (by simpa using h)

theorem stripL_eq_self (l : List Char)
    (h1 : ∀ c, l.head? = some c → isSpaceC c = false)
    (h2 : ∀ c, l.getLast? = some c → isSpaceC c = false) :
    stripL l = l := by
  unfold stripL
  rw [dropWhile_eq_self h1]
  rw [dropWhile_eq_self (fun c hc => h2 c (by rwa [List.head?_reverse] at hc))]
  exact List.reverse_reverse l

theorem stripLit_self : ∀ (p r : List Char), stripLit p (p ++ r) = some r := by
  intro p
  induction p with
  | nil => intro r; rfl
  | cons a t ih => intro r; simp [stripLit, ih]

theorem stripLit_close : ∀ (w t rest : List Char), ']' ∉ w → ']' ∉ t →
    stripLit (w ++ [']']) (t ++ ']' :: rest) = if w = t then some rest else none := by
  intro w
  induction w with
  | nil =>
    intro t rest _ ht
    cases t with
    | nil => rfl
    | cons c ts =>
      have : c ≠ ']' := fun he => ht (he ▸ List.mem_cons_self _ _)
      simp [stripLit, Ne.symm this]
  | cons a ws ih =>
    intro t rest hw ht
    have ha : a ≠ ']' := fun he => hw (he ▸ List.mem_cons_self _ _)
    have hw' : ']' ∉ ws := fun hx => hw (List.mem_cons_of_mem _ hx)
    cases t with
    | nil =>
      simp [stripLit, ha]
    | cons c ts =>
      have ht' : ']' ∉ ts := fun hx => ht (List.mem_cons_of_mem _ hx)
      rw [List.cons_append, List.cons_append, stripLit]
      by_cases hac : a = c
      · subst hac
        rw [if_pos rfl, ih ts rest hw' ht']
        by_cases hwt : ws = ts
        · rw [if_pos hwt, if_pos (by rw [hwt])]
        · rw [if_neg hwt, if_neg (fun he => hwt (List.cons.inj he).2)]
      · rw [if_neg hac, if_neg (fun he => hac (List.cons.inj he).1)]

theorem matchTag_pass (rest : List Char) :
    matchTag ('[' :: ("PASS".data ++ ']' :: rest)) = some ("PASS", rest) := rfl

theorem matchTag_warn (rest : List Char) :
    matchTag ('[' :: ("WARN".data ++ ']' :: rest)) = some ("WARN", rest) := rfl

theorem matchTag_info (rest : List Char) :
    matchTag ('[' :: ("INFO".data ++ ']' :: rest)) = some ("INFO", rest) := rfl

theorem matchTag_note (rest : List Char) :
    matchTag ('[' :: ("NOTE".data ++ ']' :: rest)) = some ("NOTE", rest) := rfl

theorem matchTag_other (tag : String) (rest : List Char)
    (htag : ∀ c ∈ tag.data, c.isUpper = true)
    (h1 : tag ≠ "PASS") (h2 : tag ≠ "WARN") (h3 : tag ≠ "INFO") (h4 : tag ≠ "NOTE") :
    matchTag ('[' :: (tag.data ++ ']' :: rest)) = none := by
  have hnb : ']' ∉ tag.data := fun hx => absurd (htag ']' hx) (by decide)
  have e1 : (['P', 'A', 'S', 'S', ']'] : List Char) = "PASS".data ++ [']'] := rfl
  have e2 : (['W', 'A', 'R', 'N', ']'] : List Char) = "WARN".data ++ [']'] := rfl
  have e3 : (['I', 'N', 'F', 'O', ']'] : List Char) = "INFO".data ++ [']'] := rfl
  have e4 : (['N', 'O', 'T', 'E', ']'] : List Char) = "NOTE".data ++ [']'] := rfl
  simp only [matchTag]
  rw [e1, stripLit_close "PASS".data tag.data rest (by decide) hnb,
    if_neg (fun he => h1 (data_inj he.symm))]
  rw [e2, stripLit_close "WARN".data tag.data rest (by decide) hnb,
    if_neg (fun he => h2 (data_inj he.symm))]
  rw [e3, stripLit_close "INFO".data tag.data rest (by decide) hnb,
    if_neg (fun he => h3 (data_inj he.symm))]
  rw [e4, stripLit_close "NOTE".data tag.data rest (by decide) hnb,
    if_neg (fun he => h4 (data_inj he.symm))]

theorem contains_of_mem {l : List Char} {c : Char} (h : c ∈ l) : l.contains c = true :=
  List.elem_eq_true_of_mem h

theorem not_mem_of_contains_false {l : List Char} {c : Char}
    (h : l.contains c = false) : c ∉ l := by
  intro hm
  have ht : l.contains c = true := List.elem_eq_true_of_mem hm
  rw [ht] at h
  cases h

theorem afterTag_mk (tagS num text : String)
    (hnum : validDotted num.data = true)
    (hh : ∀ c, text.data.head? = some c → isSpaceC c = false)
    (hne : text.data ≠ []) :
    afterTag tagS (' ' :: (num.data ++ ' ' :: '-' :: ' ' :: text.data)) =
      some (tagS, num, text) := by
  obtain ⟨d, nd, hnumd⟩ : ∃ d nd, num.data = d :: nd := by
    cases hx : num.data with
    | nil => rw [hx] at hnum; cases hnum
    | cons d nd => exact ⟨d, nd, rfl⟩
  have hd : d.isDigit = true := validDotted_head d nd (hnumd ▸ hnum)
  have hnc : ∀ c ∈ num.data, numChar c = true := vdAux_mem num.data false hnum
  have hsplit := takeWhile_append_all num.data (' ' :: '-' :: ' ' :: text.data) hnc
    (by intro c hc; cases hc; decide)
  have hX : (num.data ++ ' ' :: '-' :: ' ' :: text.data).dropWhile isSpaceC =
      num.data ++ ' ' :: '-' :: ' ' :: text.data := by
    apply dropWhile_eq_self
    intro c hc
    rw [hnumd, List.cons_append, List.head?_cons] at hc
    cases hc
    exact digit_not_space hd
  have hT : text.data.dropWhile isSpaceC = text.data := dropWhile_eq_self hh
  have hE : text.data.isEmpty = false := by
    cases hx : text.data with
    | nil => exact absurd hx hne
    | cons a t => rfl
  have hws1 : ∀ cs : List Char, ws1 (' ' :: cs) = some (cs.dropWhile isSpaceC) :=
    fun cs => rfl
  have hdash : ('-' :: ' ' :: text.data).dropWhile isSpaceC = '-' :: ' ' :: text.data := rfl
  simp only [afterTag, hws1, hX, hsplit.1, hsplit.2, hnum, eq_self_iff_true, if_true,
    hdash, hT, hE, Bool.false_eq_true, if_false, mk_data]

theorem matchBracket_mk (tag num text : String)
    (htag : ∀ c ∈ tag.data, c.isUpper = true)
    (hnum : validDotted num.data = true)
    (hh : ∀ c, text.data.head? = some c → isSpaceC c = false)
    (hne : text.data ≠ []) :
    matchBracket
      ('[' :: (tag.data ++ ']' :: ' ' :: (num.data ++ ' ' :: '-' :: ' ' :: text.data))) =
      if tag = "PASS" ∨ tag = "WARN" ∨ tag = "INFO" ∨ tag = "NOTE" then
        some (tag, num, text)
      else none := by
  unfold matchBracket
  by_cases h1 : tag = "PASS"
  · subst h1
    rw [matchTag_pass, if_pos (Or.inl rfl)]
    exact afterTag_mk "PASS" num text hnum hh hne
  · by_cases h2 : tag = "WARN"
    · subst h2
      rw [matchTag_warn, if_pos (Or.inr (Or.inl rfl))]
      exact afterTag_mk "WARN" num text hnum hh hne
    · by_cases h3 : tag = "INFO"
      · subst h3
        rw [matchTag_info, if_pos (Or.inr (Or.inr (Or.inl rfl)))]
        exact afterTag_mk "INFO" num text hnum hh hne
      · by_cases h4 : tag = "NOTE"
        · subst h4
          rw [matchTag_note, if_pos (Or.inr (Or.inr (Or.inr rfl)))]
          exact afterTag_mk "NOTE" num text hnum hh hne
        · rw [matchTag_other tag _ htag h1 h2 h3 h4,
            if_neg (by rintro (h | h | h | h) <;> [exact h1 h; exact h2 h; exact h3 h; exact h4 h])]

/-! ## Claim C2: the tag mapping of check lines -/

/-- C2 counterexample: a line of the claimed bracketed shape whose tag is
not one of the four known tags matches neither regex, so the parser emits
no finding at all rather than a finding with status skip; the same line
with a known tag does produce a finding. -/
theorem claim_C2_counterexample :
    DockerBenchScanner.parse_output "[FAIL] 1.1.1 - foo" = [] ∧
    DockerBenchScanner.parse_output "[PASS] 1.1.1 - foo" =
      [DockerBenchScanner.mkFinding "" "PASS" "1.1.1" "foo"] :=
  ⟨rfl, rfl⟩

/-- C2 amended: for a line of the bracketed dotted-number shape, the four
known tags yield exactly one finding whose canonical status is pass, fail,
skip, notapplicable for PASS, WARN, INFO, NOTE respectively; a line with
any other (uppercase alphabetic) tag is ignored and yields no finding. -/
theorem claim_C2_amended (tag num text : String)
    (htag : ∀ c ∈ tag.data, c.isUpper = true)
    (hnum : validDotted num.data = true)
    (hdot : '.' ∈ num.data)
    (hne : text.data ≠ [])
    (hh : ∀ c, text.data.head? = some c → isSpaceC c = false)
    (hl : ∀ c, text.data.getLast? = some c → isSpaceC c = false)
    (hnl : '\n' ∉ text.data) :
    DockerBenchScanner.parse_output (mkCheckLine tag num text) =
      (if tag = "PASS" ∨ tag = "WARN" ∨ tag = "INFO" ∨ tag = "NOTE" then
        [DockerBenchScanner.mkFinding "" tag num text]
      else []) ∧
    (DockerBenchScanner.mkFinding "" "PASS" num text).status = "pass" ∧
    (DockerBenchScanner.mkFinding "" "WARN" num text).status = "fail" ∧
    (DockerBenchScanner.mkFinding "" "INFO" num text).status = "skip" ∧
    (DockerBenchScanner.mkFinding "" "NOTE" num text).status = "notapplicable" := by
  refine ⟨?_, rfl, rfl, rfl, rfl⟩
  have hdata : (mkCheckLine tag num text).data =
      '[' :: (tag.data ++ ']' :: ' ' :: (num.data ++ ' ' :: '-' :: ' ' :: text.data)) := by
    simp [mkCheckLine, data_append]
  have hnc : ∀ c ∈ num.data, numChar c = true := vdAux_mem num.data false hnum
  have hnl_all : '\n' ∉ (mkCheckLine tag num text).data := by
    rw [hdata]
    intro hmem
    simp only [List.mem_cons, List.mem_append] at hmem
    rcases hmem with h | h | h | h | h | h | h | h | h <;>
      first
      | exact absurd h (by decide)
      | exact absurd (htag _ h) (by decide)
      | exact absurd (hnc _ h) (by decide)
      | exact hnl h
  have hhead : ∀ c, (mkCheckLine tag num text).data.head? = some c → isSpaceC c = false := by
    intro c hc
    rw [hdata, List.head?_cons] at hc
    cases hc
    decide
  have hlast : (mkCheckLine tag num text).data.getLast? = text.data.getLast? := by
    rw [hdata,
      show '[' :: (tag.data ++ ']' :: ' ' :: (num.data ++ ' ' :: '-' :: ' ' :: text.data)) =
        ('[' :: tag.data ++ ']' :: ' ' :: num.data ++ [' ', '-', ' ']) ++ text.data by simp,
      getLast?_append_right _ _ hne]
  have hstrip : stripL (mkCheckLine tag num text).data = (mkCheckLine tag num text).data :=
    stripL_eq_self _ hhead (fun c hc => hl c (by rwa [hlast] at hc))
  unfold DockerBenchScanner.parse_output
  rw [splitOnNl_single _ hnl_all, List.foldl_cons, List.foldl_nil]
  unfold DockerBenchScanner.lineStep
  rw [hstrip, hdata, matchBracket_mk tag num text htag hnum hh hne]
  by_cases hfour : tag = "PASS" ∨ tag = "WARN" ∨ tag = "INFO" ∨ tag = "NOTE"
  · rw [if_pos hfour, if_pos hfour]
    simp [hdot]
  · rw [if_neg hfour, if_neg hfour]

/-- C2 witness: the canonical NOTE line parses to exactly one finding with
status notapplicable. -/
theorem claim_C2_witness :
    DockerBenchScanner.parse_output (mkCheckLine "NOTE" "2.2" "z") =
      [DockerBenchScanner.mkFinding "" "NOTE" "2.2" "z"] ∧
    (DockerBenchScanner.mkFinding "" "NOTE" "2.2" "z").status = "notapplicable" := by
  have h := claim_C2_amended "NOTE" "2.2" "z"
    (by
      intro c hc
      rw [show ("NOTE".data : List Char) = ['N', 'O', 'T', 'E'] from rfl] at hc
      simp only [List.mem_cons, List.not_mem_nil, or_false] at hc
      rcases hc with rfl | rfl | rfl | rfl <;> decide)
    (by decide) (by decide) (by decide)
    (by
      intro c hc
      rw [show ("z".data : List Char) = ['z'] from rfl, List.head?_cons] at hc
      cases hc
      decide)
    (by
      intro c hc
      rw [show (("z".data : List Char).getLast? : Option Char) = some 'z' from rfl] at hc
      cases hc
      decide)
    (by decide)
  refine ⟨?_, h.2.2.2.2⟩
  rw [h.1, if_pos (by decide)]

/-! ## Claim C3: severity from the rule reference -/

/-- C3 counterexample: the severity is selected by the whole leading
dot-separated component, not by the leading digit: the reference 10.1 has
leading digit 1, which the claim places in the high bucket, yet the code
returns medium for it (while 1.1 returns high), so severity is not a
function of the leading digit. -/
theorem claim_C3_counterexample :
    "10.1".data.head? = some '1' ∧
    DockerBenchScanner.get_severity "10.1" = "medium" ∧
    DockerBenchScanner.get_severity "1.1" = "high" :=
  ⟨rfl, rfl, rfl⟩

theorem takeWhile_all {p : Char → Bool} : ∀ (l : List Char), (∀ c ∈ l, p c = true) →
    l.takeWhile p = l := by
  intro l h
  induction l with
  | nil => rfl
  | cons a t ih =>
    rw [List.takeWhile_cons_of_pos (h a (List.mem_cons_self _ _)),
      ih (fun c hc => h c (List.mem_cons_of_mem _ hc))]

/-- get_severity is the severity table applied to the text before the
first dot of the reference (for a dotless reference, the whole of it). -/
theorem get_severity_eq_lead (ref : String) :
    DockerBenchScanner.get_severity ref =
      lookupD DockerBenchScanner.severity_map
        (String.mk (ref.data.takeWhile (fun c => c ≠ '.'))) "medium" := by
  show lookupD DockerBenchScanner.severity_map
      (if ref.data.contains '.' then String.mk (ref.data.takeWhile (fun c => c ≠ '.'))
       else ref) "medium" =
    lookupD DockerBenchScanner.severity_map
      (String.mk (ref.data.takeWhile (fun c => c ≠ '.'))) "medium"
  by_cases h : ref.data.contains '.' = true
  · rw [if_pos h]
  · rw [if_neg h]
    have h' : ref.data.contains '.' = false := by
      cases hx : ref.data.contains '.'
      · rfl
      · exact absurd hx h
    have hmem : '.' ∉ ref.data := not_mem_of_contains_false h'
    have htw : ref.data.takeWhile (fun c => decide (c ≠ '.')) = ref.data :=
      takeWhile_all _ (by
        intro c hc
        simp only [decide_eq_true_eq]
        exact fun he => hmem (he ▸ hc))
    rw [htw, mk_data]

/-- C3 amended: every emitted finding carries the severity computed from
its own rule reference, and that severity is determined by the leading
dot-separated component of the reference: components 1, 2, 5 give high,
3, 4, 6 give medium, 7 gives low, and every other component (including a
multi-digit one such as 10, whatever its leading digit) gives medium. -/
theorem claim_C3_amended :
    (∀ (out : String) (f : Finding), f ∈ DockerBenchScanner.parse_output out →
      f.severity = DockerBenchScanner.get_severity f.rule_ref) ∧
    (∀ ref lead : String, lead = String.mk (ref.data.takeWhile (fun c => c ≠ '.')) →
      ((lead = "1" ∨ lead = "2" ∨ lead = "5") →
        DockerBenchScanner.get_severity ref = "high") ∧
      ((lead = "3" ∨ lead = "4" ∨ lead = "6") →
        DockerBenchScanner.get_severity ref = "medium") ∧
      (lead = "7" → DockerBenchScanner.get_severity ref = "low") ∧
      (lead ∉ ["1", "2", "3", "4", "5", "6", "7"] →
        DockerBenchScanner.get_severity ref = "medium")) := by
  constructor
  · apply parse_output_inv
    intro cs tag num text
    rfl
  · intro ref lead hlead
    rw [get_severity_eq_lead ref, ← hlead]
    refine ⟨?_, ?_, ?_, ?_⟩
    · rintro (rfl | rfl | rfl) <;> decide
    · rintro (rfl | rfl | rfl) <;> decide
    · rintro rfl; decide
    · intro hne
      apply lookupD_eq_default
      intro p hp
      simp only [List.mem_cons, List.not_mem_nil, or_false, not_or] at hne
      obtain ⟨n1, n2, n3, n4, n5, n6, n7⟩ := hne
      simp only [DockerBenchScanner.severity_map, List.mem_cons, List.not_mem_nil,
        or_false] at hp
      rcases hp with rfl | rfl | rfl | rfl | rfl | rfl | rfl <;>
        first
        | exact Ne.symm n1
        | exact Ne.symm n2
        | exact Ne.symm n3
        | exact Ne.symm n4
        | exact Ne.symm n5
        | exact Ne.symm n6
        | exact Ne.symm n7

/-- C3 witness: the table facts at concrete references, and a concrete
parsed finding carrying the severity of its own reference. -/
theorem claim_C3_witness :
    DockerBenchScanner.get_severity "7.1" = "low" ∧
    (DockerBenchScanner.mkFinding "" "WARN" "5.1" "x").severity =
      DockerBenchScanner.get_severity
        (DockerBenchScanner.mkFinding "" "WARN" "5.1" "x").rule_ref :=
  ⟨(claim_C3_amended.2 "7.1" "7" (by decide)).2.2.1 rfl,
   claim_C3_amended.1 "[WARN] 5.1 - x" _ (by decide)⟩
